import Mathlib

/-!
Shallow embedding of the MIDI meta-data decoder of midi-meta-viewer
(src/main.ts) and verification of the specification claims about it.

The decoder is the function parseMidi of src/main.ts together with its
helper readVarLen.  The embedding keeps the JavaScript semantics that the
source relies on:

* indexing a Uint8Array out of bounds yields undefined, modelled by
  Option Nat (jsGet);
* undefined coerces to 0 under bitwise operators and compares false
  under every relational or strict-equality test against a number;
* the operators << and | work on 32-bit two's-complement integers, so
  the accumulated value of readVarLen and the chunk size are 32-bit
  patterns (kept as Nat below 2 to the 32) whose signed reading
  (asInt32) is what gets added to cursors;
* Uint8Array.prototype.slice clamps its arguments (jsSlice);
* the two while loops of parseMidi are modelled with explicit fuel,
  returning none when the fuel runs out; the loops of the source have no
  other exit, so a result of none for every fuel is exactly a
  non-terminating run of the source.

The TextDecoder for Shift-JIS is an external platform facility, not code
of this repository; the walker is therefore parameterised by the decode
function dec.  For concrete inputs whose text payloads are ASCII we
instantiate it with decAscii, which agrees with the WHATWG Shift_JIS
decoder on all byte sequences used (bytes up to 0x7F decode to the same
code point, and the empty buffer decodes to the empty string).
-/

namespace MidiMetaViewer

/-- Reading data[i] on a Uint8Array: the byte when the index is in
bounds, undefined (none) otherwise. -/
def jsGet (data : List Nat) (i : Int) : Option Nat :=
  if i < 0 then none else data.get? i.toNat

/-- Signed 32-bit reading of a bit pattern, as produced by the
JavaScript operators << and | . -/
def asInt32 (pat : Nat) : Int :=
  if pat % 4294967296 < 2147483648 then ((pat % 4294967296 : Nat) : Int)
  else ((pat % 4294967296 : Nat) : Int) - 4294967296

/-- Uint8Array.prototype.slice(start, fin): clamp both indices into
[0, length] (negative indices count from the end) and take the elements
between them. -/
def jsSlice (data : List Nat) (start fin : Int) : List Nat :=
  let len : Int := data.length
  let s := if start < 0 then max (len + start) 0 else min start len
  let e := if fin < 0 then max (len + fin) 0 else min fin len
  (data.drop s.toNat).take (e - s).toNat

/-- Loop of readVarLen over the suffix of the buffer that starts at the
cursor.  Returns the accumulated 32-bit pattern and the number of bytes
consumed.  The empty-suffix case is the out-of-bounds read: data[i]
is undefined, undefined & 0x7f is 0 and (undefined & 0x80) === 0 holds,
so the loop consumes the phantom byte and stops. -/
def rvlAux : List Nat → Nat → Nat × Nat
  | [], acc => (acc * 128 % 4294967296, 1)
  | b :: rest, acc =>
    let v := (acc * 128 % 4294967296) ||| (b &&& 127)
    if b &&& 128 = 0 then (v, 1)
    else
      let r := rvlAux rest v
      (r.1, r.2 + 1)

/-- readVarLen of src/main.ts: decode a variable-length quantity at
offset, returning the accumulated value (as the 32-bit pattern the
JavaScript number holds) and the offset just past the last byte read. -/
def readVarLen (data : List Nat) (offset : Int) : Nat × Int :=
  if offset < 0 then (0, offset + 1)
  else
    let r := rvlAux (data.drop offset.toNat) 0
    (r.1, offset + r.2)

/-- One XF information item: a label (the type string of the source) and
the field text. -/
structure XfField where
  type : String
  text : List Char
  deriving DecidableEq, Repr

/-- The XFInfo record of the source, with its two category arrays
(common and per-language, named as in the source). -/
structure XFInfo where
  «共通» : List XfField
  «言語別» : List XfField
  deriving DecidableEq, Repr

/-- A meta event record as pushed into metaList by parseMidi: either a
plain text meta event or the XF record.  The source distinguishes the
two by the type string being the literal XF; no plain record ever
carries that type string, so the tagged union is faithful. -/
inductive MetaEvent where
  | normal (type : String) (text : List Char)
  | xf (info : XFInfo)
  deriving DecidableEq, Repr

/-- Decide whether a record is the XF variant. -/
def MetaEvent.isXf : MetaEvent → Bool
  | .xf _ => true
  | .normal _ _ => false

/-- One entry of the track metadata list. -/
structure TrackMeta where
  track : Nat
  meta : List MetaEvent
  deriving DecidableEq, Repr

/-- META_EVENT_TYPES of the source: the six recognised textual meta
types and their labels. -/
def META_EVENT_TYPES (t : Nat) : Option String :=
  if t = 3 then some ("曲名")
  else if t = 2 then some ("著作権")
  else if t = 1 then some ("テキスト")
  else if t = 5 then some ("歌詞")
  else if t = 6 then some ("マーカー")
  else if t = 7 then some ("キューポイント")
  else none

/-- XF_INFO_TYPES of the source: the label tables for the two XF
sub-chunk kinds, keyed by the first four characters of the decoded
text.  Any other key reads the record out of its domain (undefined in
the source); the empty list models that, and the tables are only ever
consulted with the two keys below. -/
def XF_INFO_TYPES (key : List Char) : List String :=
  if key = ("XFhd").toList then
    [("ID"), ("発表年月日"), ("制作地"), ("曲のジャンル"), ("リズムのビート"),
     ("メロディーパートの主な楽器"), ("歌唱タイプ"), ("作曲者"), ("作詞者"),
     ("編曲者"), ("演奏者/歌唱者"), ("楽曲データ制作者"), ("キーワード")]
  else if key = ("XFln").toList then
    [("ID"), ("言語情報"), ("曲名"), ("作曲者"), ("作詞者"), ("編曲者"),
     ("演奏者/歌唱者"), ("楽曲データ制作者")]
  else []

/-- The field-collecting loop of the XF branch: for every item of the
split text at index above 0 that has a label at the same index in the
table and is non-empty, emit the label with the item. -/
def collectFields (types : List String) (items : List (List Char)) : List XfField :=
  items.enum.filterMap fun p =>
    if 0 < p.1 then
      match types.get? p.1 with
      | some lbl => if p.2 ≠ [] then some ⟨lbl, p.2⟩ else none
      | none => none
    else none

/-- The merge step of the XF branch: when the most recent record of
metaList is the XF record, push the collected fields into its matching
category; otherwise push a fresh XF record holding the fields in the
matching category and nothing in the other. -/
def mergeXF (ml : List MetaEvent) (ffc : List Char) (fields : List XfField) : List MetaEvent :=
  match ml.getLast? with
  | some (MetaEvent.xf info) =>
      ml.dropLast ++
        [MetaEvent.xf (if ffc = ("XFhd").toList then ⟨info.«共通» ++ fields, info.«言語別»⟩
                       else ⟨info.«共通», info.«言語別» ++ fields⟩)]
  | _ =>
      ml ++ [MetaEvent.xf (if ffc = ("XFhd").toList then ⟨fields, []⟩ else ⟨[], fields⟩)]

/-- The body of the recognised-meta-type branch of parseMidi: decode the
payload, reroute XF sub-chunks, otherwise push a plain record when the
text is non-empty.  pos is the offset of the payload (the cursor after
the length quantity), len its signed length. -/
def processText (dec : List Nat → List Char) (data : List Nat) (tc : Nat)
    (typeName : String) (pos : Int) (len : Int) (ml : List MetaEvent) : List MetaEvent :=
  let type := if 0 < tc ∧ typeName = ("曲名" : String) then ("トラック名" : String) else typeName
  let text := dec (jsSlice data pos (pos + len))
  let ffc := text.take 4
  if ffc = ("XFhd").toList ∨ ffc = ("XFln").toList then
    mergeXF ml ffc (collectFields (XF_INFO_TYPES ffc) (text.splitOn ':'))
  else if text ≠ [] then ml ++ [MetaEvent.normal type text] else ml

/-- State of the event-walking loop: cursor, runningStatus (an Option,
since an out-of-bounds status read stores undefined there) and the
metaList accumulated so far. -/
structure WalkState where
  i : Int
  runningStatus : Option Nat
  metaList : List MetaEvent
  deriving DecidableEq, Repr

/-- The meta-event arm of the dispatch: read the type byte at pos, the
length quantity after it, run the text handling when the type is
recognised, then either stop the walk (end of track) or advance the
cursor past the payload. -/
def metaStep (dec : List Nat → List Char) (data : List Nat) (tc : Nat)
    (pos : Int) (rs : Option Nat) (ml : List MetaEvent) : WalkState × Bool :=
  let metaType := jsGet data pos
  let lenPat := (readVarLen data (pos + 1)).1
  let afterLen := (readVarLen data (pos + 1)).2
  let len := asInt32 lenPat
  let ml' :=
    match metaType.bind META_EVENT_TYPES with
    | some typeName => processText dec data tc typeName afterLen len ml
    | none => ml
  if metaType = some 47 ∧ lenPat = 0 then (⟨afterLen, rs, ml'⟩, true)
  else (⟨afterLen + len, rs, ml'⟩, false)

/-- Dispatch of the event walker on the resolved status, with the cursor
already past the status byte when it was explicit.  The final arm is the
defensive advance-by-one of the source, also reached when the status is
undefined (NaN comparisons are all false). -/
def dispatch (dec : List Nat → List Char) (data : List Nat) (tc : Nat)
    (status : Option Nat) (i : Int) (rs : Option Nat) (ml : List MetaEvent) :
    WalkState × Bool :=
  match status with
  | some 255 => metaStep dec data tc i rs ml
  | some b =>
      if 128 ≤ b ∧ b ≤ 239 then
        (⟨i + (if b &&& 240 = 192 ∨ b &&& 240 = 208 then 1 else 2), rs, ml⟩, false)
      else if b = 240 ∨ b = 247 then
        (⟨(readVarLen data i).2 + asInt32 (readVarLen data i).1, rs, ml⟩, false)
      else (⟨i + 1, rs, ml⟩, false)
  | none => (⟨i + 1, rs, ml⟩, false)

/-- One iteration of the event loop of parseMidi: skip the delta time,
resolve the status byte (running status when the high bit is unset),
then dispatch.  The returned Bool reports the break of the end-of-track
arm. -/
def walkStep (dec : List Nat → List Char) (data : List Nat) (tc : Nat)
    (s : WalkState) : WalkState × Bool :=
  let afterDelta := (readVarLen data s.i).2
  match jsGet data afterDelta with
  | some b =>
      if b < 128 then dispatch dec data tc s.runningStatus afterDelta s.runningStatus s.metaList
      else dispatch dec data tc (some b) (afterDelta + 1) (some b) s.metaList
  | none => dispatch dec data tc none (afterDelta + 1) none s.metaList

/-- The decoded text payload of the meta event whose type byte sits at
pos: the length quantity follows the type byte, and the payload slice
starts after it and spans its signed value. -/
def payloadText (dec : List Nat → List Char) (data : List Nat) (pos : Int) : List Char :=
  dec (jsSlice data (readVarLen data (pos + 1)).2
    ((readVarLen data (pos + 1)).2 + asInt32 (readVarLen data (pos + 1)).1))

/-- The event loop of parseMidi over one chunk body, with fuel: none
means the fuel ran out before the loop finished, so a result of none for
every fuel is a run of the source that never terminates. -/
def eventWalk (dec : List Nat → List Char) (data : List Nat) (tc : Nat)
    (endPos : Int) : Nat → WalkState → Option (List MetaEvent)
  | 0, _ => none
  | n + 1, s =>
    if s.i < endPos then
      match walkStep dec data tc s with
      | (s', true) => some s'.metaList
      | (s', false) => eventWalk dec data tc endPos n s'
    else some s.metaList

/-- The four-byte signature test of the chunk scanner: MTrk or XFIH at
offset. -/
def chunkSigAt (data : List Nat) (offset : Int) : Prop :=
  (jsGet data offset = some 77 ∧ jsGet data (offset + 1) = some 84 ∧
   jsGet data (offset + 2) = some 114 ∧ jsGet data (offset + 3) = some 107) ∨
  (jsGet data offset = some 88 ∧ jsGet data (offset + 1) = some 70 ∧
   jsGet data (offset + 2) = some 73 ∧ jsGet data (offset + 3) = some 72)

instance (data : List Nat) (offset : Int) : Decidable (chunkSigAt data offset) := by
  unfold chunkSigAt; infer_instance

/-- The 32-bit pattern of the chunk size read big-endian at offset+4,
as computed by the shifts and ors of the source (undefined bytes coerce
to 0). -/
def readChunkSizePat (data : List Nat) (offset : Int) : Nat :=
  ((((jsGet data (offset + 4)).getD 0 * 16777216) % 4294967296) |||
   (((jsGet data (offset + 5)).getD 0 * 65536) % 4294967296)) |||
  ((((jsGet data (offset + 6)).getD 0 * 256) % 4294967296) |||
   ((jsGet data (offset + 7)).getD 0 % 4294967296))

/-- The outer chunk-scanning loop of parseMidi, with fuel shared with
the inner walk.  A none from the inner walk (or from the scan itself)
propagates: the source would still be running. -/
def chunkScan (dec : List Nat → List Char) (data : List Nat) :
    Nat → Int → Nat → List TrackMeta → Option (List TrackMeta)
  | 0, _, _, _ => none
  | n + 1, offset, tc, acc =>
    if offset < (data.length : Int) then
      if chunkSigAt data offset then
        let endPos := offset + 8 + asInt32 (readChunkSizePat data offset)
        match eventWalk dec data tc endPos (n + 1) ⟨offset + 8, some 0, []⟩ with
        | none => none
        | some ml => chunkScan dec data n endPos (tc + 1) (acc ++ [⟨tc + 1, ml⟩])
      else chunkScan dec data n (offset + 1) tc acc
    else some acc

/-- The MThd test at the start of parseMidi. -/
def isMidi (data : List Nat) : Prop :=
  jsGet data 0 = some 77 ∧ jsGet data 1 = some 84 ∧
  jsGet data 2 = some 104 ∧ jsGet data 3 = some 100

instance (data : List Nat) : Decidable (isMidi data) := by
  unfold isMidi; infer_instance

/-- The message of the single Error the source throws. -/
def notMidiMsg : String := "MIDIファイルではありません。"

/-- parseMidi of src/main.ts: reject non-MIDI input, then scan chunks
from offset 14.  Fuel as in chunkScan; the result is an Except because
the source signals the header failure by throwing. -/
def parseMidi (dec : List Nat → List Char) (fuel : Nat) (data : List Nat) :
    Option (Except String (List TrackMeta)) :=
  if isMidi data then (chunkScan dec data fuel 14 0 []).map Except.ok
  else some (Except.error notMidiMsg)

/-- The Shift-JIS text decoder restricted to the inputs our concrete
witnesses use: on buffers whose bytes are at most 0x7F the WHATWG
Shift_JIS decoder maps every byte to the code point of the same value,
and it maps the empty buffer to the empty string.  All concrete inputs
below only ever decode such buffers. -/
def decAscii (bs : List Nat) : List Char := bs.map Char.ofNat

/-- Modelled from the spec: the MIDI variable-length-quantity encoder
(7 bits per byte, big-endian, continuation bit on every byte but the
last).  The repository contains only the decoder readVarLen; the
round-trip property of the spec needs this encoder for values in
[0, 0x0FFFFFFF]. -/
def encodeVarLen (v : Nat) : List Nat :=
  if v < 128 then [v]
  else if v < 16384 then [128 + v / 128, v % 128]
  else if v < 2097152 then [128 + v / 16384, 128 + v / 128 % 128, v % 128]
  else [128 + v / 2097152, 128 + v / 16384 % 128, 128 + v / 128 % 128, v % 128]

/-- Insertion of one byte at position q, relating an event stream with
running status to the stream with the status byte explicit. -/
def insertAt (l : List Nat) (q : Nat) (b : Nat) : List Nat :=
  l.take q ++ b :: l.drop q

/-- Termination of a decode in the fuel model: some fuel suffices. -/
def decodeTerminates (dec : List Nat → List Char) (data : List Nat) : Prop :=
  ∃ fuel, (parseMidi dec fuel data).isSome

/-- Shift the cursor of a step result by one: the correspondence between
walking a stream and walking the same stream with one byte inserted
before the cursor. -/
def shiftState (p : WalkState × Bool) : WalkState × Bool :=
  (⟨p.1.i + 1, p.1.runningStatus, p.1.metaList⟩, p.2)

/-- A file with a valid header and one MTrk chunk that declares a 4-byte
body although only one body byte is present in the buffer: the event
walker reads past the end of the buffer while decoding it. -/
def truncatedChunkFile : List Nat :=
  [0x4D, 0x54, 0x68, 0x64, 0, 0, 0, 0, 0, 0, 0, 0, 0, 0,
   0x4D, 0x54, 0x72, 0x6B, 0x00, 0x00, 0x00, 0x04, 0x00]

/-- A file whose single MTrk chunk holds one meta event whose five-byte
length quantity has the 32-bit pattern 0xFFFFFFF8, read as -8: adding it
to the cursor returns the walker to the start of the same event, so the
event loop revisits the same state forever. -/
def loopingFile : List Nat :=
  [0x4D, 0x54, 0x68, 0x64, 0, 0, 0, 0, 0, 0, 0, 0, 0, 0,
   0x4D, 0x54, 0x72, 0x6B, 0x00, 0x00, 0x00, 0x20,
   0x00, 0xFF, 0x00, 0x8F, 0xFF, 0xFF, 0xFF, 0x78]

/-- A file whose single chunk carries one meta event of unrecognised
type 0x04 whose payload is the ASCII text XFhd:ID1:1999/01/01, followed
by end of track. -/
def unrecognisedXfFile : List Nat :=
  [0x4D, 0x54, 0x68, 0x64, 0x00, 0x00, 0x00, 0x06, 0x00, 0x01, 0x00, 0x01, 0x00, 0x60,
   0x4D, 0x54, 0x72, 0x6B, 0x00, 0x00, 0x00, 0x1B,
   0x00, 0xFF, 0x04, 0x13,
   0x58, 0x46, 0x68, 0x64, 0x3A, 0x49, 0x44, 0x31, 0x3A,
   0x31, 0x39, 0x39, 0x39, 0x2F, 0x30, 0x31, 0x2F, 0x30, 0x31,
   0x00, 0xFF, 0x2F, 0x00]

/-- A file whose single chunk carries a text meta event with payload
XFhd:ID1:1999/01/01 immediately followed by one with payload
XFln:en:Song Title, then end of track. -/
def xfMergeFile : List Nat :=
  [0x4D, 0x54, 0x68, 0x64, 0x00, 0x00, 0x00, 0x06, 0x00, 0x01, 0x00, 0x01, 0x00, 0x60,
   0x4D, 0x54, 0x72, 0x6B, 0x00, 0x00, 0x00, 0x31,
   0x00, 0xFF, 0x01, 0x13,
   0x58, 0x46, 0x68, 0x64, 0x3A, 0x49, 0x44, 0x31, 0x3A,
   0x31, 0x39, 0x39, 0x39, 0x2F, 0x30, 0x31, 0x2F, 0x30, 0x31,
   0x00, 0xFF, 0x01, 0x12,
   0x58, 0x46, 0x6C, 0x6E, 0x3A, 0x65, 0x6E, 0x3A,
   0x53, 0x6F, 0x6E, 0x67, 0x20, 0x54, 0x69, 0x74, 0x6C, 0x65,
   0x00, 0xFF, 0x2F, 0x00]

/-- The single XF record that decoding xfMergeFile produces. -/
def xfMergeInfo : XFInfo :=
  ⟨[⟨("発表年月日"), ("ID1").toList⟩, ⟨("制作地"), ("1999/01/01").toList⟩],
   [⟨("言語情報"), ("en").toList⟩, ⟨("曲名"), ("Song Title").toList⟩]⟩

/-- A file whose single chunk carries an XFhd payload, then a plain text
payload, then an XFln payload: the plain record separates the two XF
payloads. -/
def xfTextXfFile : List Nat :=
  [0x4D, 0x54, 0x68, 0x64, 0x00, 0x00, 0x00, 0x06, 0x00, 0x01, 0x00, 0x01, 0x00, 0x60,
   0x4D, 0x54, 0x72, 0x6B, 0x00, 0x00, 0x00, 0x23,
   0x00, 0xFF, 0x01, 0x06, 0x58, 0x46, 0x68, 0x64, 0x3A, 0x61,
   0x00, 0xFF, 0x01, 0x05, 0x48, 0x65, 0x6C, 0x6C, 0x6F,
   0x00, 0xFF, 0x01, 0x08, 0x58, 0x46, 0x6C, 0x6E, 0x3A, 0x62, 0x3A, 0x63,
   0x00, 0xFF, 0x2F, 0x00]

/-- Chunk body of an event stream whose fifth event reuses the running
status 0xC0 implicitly (the data byte 0x11 at position 17), and whose
final meta event carries a five-byte length quantity read as -24,
jumping the cursor back into the payload of the first event. -/
def implicitStream : List Nat :=
  [0x00, 0xFF, 0x09, 0x09,
   0x00, 0xFF, 0x01, 0x01, 0x00,
   0x00, 0xFF, 0x09, 0x0D,
   0x00, 0xC0, 0x10,
   0x00, 0x11,
   0x00, 0xFF, 0x00, 0x8F, 0xFF, 0xFF, 0xFF, 0x6A]

/-- The same stream with the status byte 0xC0 of that event written
explicitly at position 17. -/
def explicitStream : List Nat := insertAt implicitStream 17 0xC0

/-- A one-event chunk body: a meta event of kind 0x05 (lyrics) whose
payload is the ASCII text XFhd:a. -/
def xfBody3 : List Nat :=
  [0x00, 0xFF, 0x05, 0x06, 0x58, 0x46, 0x68, 0x64, 0x3A, 0x61]

/-- A one-event chunk body: a meta event of kind 0x06 (marker) whose
payload is the ASCII text XFln:b:c. -/
def xfBody5 : List Nat :=
  [0x00, 0xFF, 0x06, 0x08, 0x58, 0x46, 0x6C, 0x6E, 0x3A, 0x62, 0x3A, 0x63]

/-- A metaList whose most recent record is an XF record, as left behind
by an XFhd:a payload. -/
def c5PriorList : List MetaEvent :=
  [MetaEvent.xf ⟨[⟨("発表年月日"), ("a").toList⟩], []⟩]

/-- A chunk body holding an end-of-track meta event followed by two
stray bytes that lie before the nominal chunk end. -/
def eotBody : List Nat := [0x00, 0xFF, 0x2F, 0x00, 0x99, 0x99]

/-- A chunk body starting with a system-exclusive event (status 0xF7,
length 2). -/
def sysexBody : List Nat := [0x00, 0xF7, 0x02, 0x01, 0x02]

/-- A chunk body whose first event byte after the delta time is the
data byte 0x2A (high bit unset). -/
def runningMetaBody : List Nat := [0x00, 0x2A, 0x00, 0x00]

end MidiMetaViewer

namespace MidiMetaViewer

/-- The header test of parseMidi succeeds exactly when the first four
bytes of the buffer are the ASCII signature MThd. -/
theorem isMidi_iff (data : List Nat) :
    isMidi data ↔ data.take 4 = [77, 84, 104, 100] := by
  rcases data with _ | ⟨a, _ | ⟨b, _ | ⟨c, _ | ⟨d, t⟩⟩⟩⟩ <;>
    simp [isMidi, jsGet, List.get?]

/-- C9: for every input byte sequence whose first 4 bytes are not the
ASCII signature MThd (including sequences shorter than 4 bytes), decode
fails with the not-a-MIDI-file error and produces no result list. -/
theorem c9_not_midi_rejection (dec : List Nat → List Char) (fuel : Nat) (data : List Nat)
    (h : data.take 4 ≠ [77, 84, 104, 100]) :
    parseMidi dec fuel data = some (Except.error notMidiMsg) := by
  rw [parseMidi, if_neg (fun hm => h ((isMidi_iff data).mp hm))]

/-- Witness for C9 at the empty input. -/
theorem c9_witness :
    ([] : List Nat).take 4 ≠ [77, 84, 104, 100] ∧
      parseMidi decAscii 0 [] = some (Except.error notMidiMsg) :=
  ⟨by decide, c9_not_midi_rejection decAscii 0 [] (by decide)⟩

/-- C1 (amended): the only failure outcome of decode is the
not-a-MIDI-file error, raised exactly on a header mismatch; a read past
the end of the buffer never aborts the decode with an error. -/
theorem c1_only_not_midi_failure (dec : List Nat → List Char) (fuel : Nat)
    (data : List Nat) (e : String)
    (h : parseMidi dec fuel data = some (Except.error e)) :
    e = notMidiMsg ∧ data.take 4 ≠ [77, 84, 104, 100] := by
  by_cases hm : isMidi data
  · rw [parseMidi, if_pos hm] at h
    cases hcs : chunkScan dec data fuel 14 0 [] <;> rw [hcs] at h <;> simp at h
  · rw [parseMidi, if_neg hm] at h
    refine ⟨?_, fun ht => hm ((isMidi_iff data).mpr ht)⟩
    exact (Except.error.inj (Option.some.inj h)).symm

/-- Witness for C1 at the empty input. -/
theorem c1_witness :
    parseMidi decAscii 0 [] = some (Except.error notMidiMsg) ∧
      (notMidiMsg = notMidiMsg ∧ ([] : List Nat).take 4 ≠ [77, 84, 104, 100]) :=
  ⟨rfl, c1_only_not_midi_failure decAscii 0 [] notMidiMsg rfl⟩

/-- Counterexample to C1 as stated: truncatedChunkFile declares a chunk
body of 4 bytes starting at offset 22 although the buffer has 23 bytes
in total, so the event walker reads past the end of the buffer — yet
decode does not abort with any error: it returns a result. -/
theorem c1_counterexample :
    ((22 : Int) + asInt32 (readChunkSizePat truncatedChunkFile 14) = 26 ∧
      truncatedChunkFile.length = 23) ∧
    parseMidi decAscii 50 truncatedChunkFile = some (Except.ok [⟨1, []⟩]) :=
  ⟨by decide, rfl⟩

/-- Fixed point of the event loop on loopingFile: the state at cursor 22
with running status 0xFF steps to itself. -/
theorem loopingFile_walkStep_fixed (dec : List Nat → List Char) :
    walkStep dec loopingFile 0 ⟨22, some 255, []⟩ = (⟨22, some 255, []⟩, false) := rfl

/-- The event loop of loopingFile runs out of any fuel from the fixed
point. -/
theorem loopingFile_eventWalk_none (dec : List Nat → List Char) :
    ∀ n, eventWalk dec loopingFile 0 54 n ⟨22, some 255, []⟩ = none := by
  intro n
  induction n with
  | zero => rfl
  | succ n ih =>
      rw [eventWalk, if_pos (by decide : (22 : Int) < 54), loopingFile_walkStep_fixed]
      exact ih

/-- C2 is false on the code: decoding loopingFile exhausts every fuel,
because the event loop revisits the state at cursor 22 forever (the
five-byte length quantity of its meta event is read as the 32-bit value
-8, and adding it to the cursor undoes the advance over the event).  In
the fuel model a result of none for every fuel is exactly a run of the
source that never terminates. -/
theorem c2_decode_diverges : ∀ (dec : List Nat → List Char) (fuel : Nat),
    parseMidi dec fuel loopingFile = none := by
  intro dec fuel
  have hwalk0 : ∀ n, eventWalk dec loopingFile 0 54 n ⟨22, some 0, []⟩ = none := by
    intro n
    cases n with
    | zero => rfl
    | succ n =>
        rw [eventWalk, if_pos (by decide : (22 : Int) < 54)]
        rw [show walkStep dec loopingFile 0 ⟨22, some 0, []⟩ =
              (⟨22, some 255, []⟩, false) from rfl]
        exact loopingFile_eventWalk_none dec n
  have hscan : ∀ n, chunkScan dec loopingFile n 14 0 [] = none := by
    intro n
    cases n with
    | zero => rfl
    | succ n =>
        have hred : chunkScan dec loopingFile (n + 1) 14 0 [] =
            match eventWalk dec loopingFile 0 54 (n + 1) ⟨22, some 0, []⟩ with
            | none => none
            | some ml => chunkScan dec loopingFile n 54 1 [⟨1, ml⟩] := rfl
        rw [hred, hwalk0 (n + 1)]
  rw [parseMidi, if_pos (by decide : isMidi loopingFile), hscan fuel]
  rfl

/-- A recognised meta type is never the end-of-track type 0x2F. -/
theorem META_EVENT_TYPES_ne_endOfTrack {mt : Nat} {lbl : String}
    (h : META_EVENT_TYPES mt = some lbl) : mt ≠ 47 := by
  intro he
  subst he
  norm_num [META_EVENT_TYPES] at h
  exact Option.noConfusion h

/-- A status byte with the high bit set is consumed and dispatched
explicitly. -/
theorem walkStep_status_explicit (dec : List Nat → List Char) (data : List Nat) (tc : Nat)
    (s : WalkState) (b : Nat) (h : jsGet data ((readVarLen data s.i).2) = some b)
    (hb : 128 ≤ b) :
    walkStep dec data tc s =
      dispatch dec data tc (some b) ((readVarLen data s.i).2 + 1) (some b) s.metaList := by
  simp only [walkStep, h]
  rw [if_neg (by omega)]

/-- A byte with the high bit unset in status position is not consumed:
the walker reuses the running status. -/
theorem walkStep_status_running (dec : List Nat → List Char) (data : List Nat) (tc : Nat)
    (s : WalkState) (d : Nat) (h : jsGet data ((readVarLen data s.i).2) = some d)
    (hd : d < 128) :
    walkStep dec data tc s =
      dispatch dec data tc s.runningStatus ((readVarLen data s.i).2)
        s.runningStatus s.metaList := by
  simp only [walkStep, h]
  rw [if_pos hd]

/-- A meta event with a recognised type byte whose decoded payload
starts with XFhd or XFln is handled by the XF merge, whichever of the
six recognised kinds its type byte is: the resulting record list is
mergeXF of the collected fields, no plain record is pushed, the walk
does not stop, and the cursor advances past the payload. -/
theorem metaStep_xf (dec : List Nat → List Char) (data : List Nat) (tc : Nat)
    (pos : Int) (rs : Option Nat) (ml : List MetaEvent) (mt : Nat) (lbl : String)
    (hmt : jsGet data pos = some mt)
    (hlbl : META_EVENT_TYPES mt = some lbl)
    (htext : (payloadText dec data pos).take 4 = ("XFhd").toList ∨
             (payloadText dec data pos).take 4 = ("XFln").toList) :
    metaStep dec data tc pos rs ml =
      (⟨(readVarLen data (pos + 1)).2 + asInt32 (readVarLen data (pos + 1)).1, rs,
        mergeXF ml ((payloadText dec data pos).take 4)
          (collectFields (XF_INFO_TYPES ((payloadText dec data pos).take 4))
            ((payloadText dec data pos).splitOn ':'))⟩, false) := by
  have hne : mt ≠ 47 := META_EVENT_TYPES_ne_endOfTrack hlbl
  simp only [metaStep, hmt, Option.some_bind, hlbl]
  rw [if_neg (fun hc => hne (Option.some.inj hc.1))]
  simp only [payloadText] at htext
  simp only [processText, payloadText]
  rw [if_pos htext]

/-- Byte-level form of the XF reroute through one full walker step, for
an explicit meta status byte: helper shared by the XF claims. -/
theorem walkStep_xf (dec : List Nat → List Char) (data : List Nat) (tc : Nat)
    (s : WalkState) (mt : Nat)
    (hst : jsGet data ((readVarLen data s.i).2) = some 255)
    (hmt : jsGet data ((readVarLen data s.i).2 + 1) = some mt)
    (hmem : mt = 1 ∨ mt = 2 ∨ mt = 3 ∨ mt = 5 ∨ mt = 6 ∨ mt = 7)
    (htext :
      (payloadText dec data ((readVarLen data s.i).2 + 1)).take 4 = ("XFhd").toList ∨
      (payloadText dec data ((readVarLen data s.i).2 + 1)).take 4 = ("XFln").toList) :
    walkStep dec data tc s =
      (⟨(readVarLen data ((readVarLen data s.i).2 + 1 + 1)).2 +
          asInt32 (readVarLen data ((readVarLen data s.i).2 + 1 + 1)).1, some 255,
        mergeXF s.metaList ((payloadText dec data ((readVarLen data s.i).2 + 1)).take 4)
          (collectFields
            (XF_INFO_TYPES ((payloadText dec data ((readVarLen data s.i).2 + 1)).take 4))
            ((payloadText dec data ((readVarLen data s.i).2 + 1)).splitOn ':'))⟩,
       false) := by
  obtain ⟨lbl, hlbl⟩ : ∃ l, META_EVENT_TYPES mt = some l := by
    rcases hmem with h | h | h | h | h | h <;> subst h <;> exact ⟨_, rfl⟩
  rw [walkStep_status_explicit dec data tc s 255 hst (by omega)]
  exact metaStep_xf dec data tc ((readVarLen data s.i).2 + 1) (some 255) s.metaList mt lbl
    hmt hlbl htext

/-- C3 (amended): whenever the event walker reads a meta event whose
status byte is 0xFF, whose type byte is one of the six recognised text
kinds 0x01,0x02,0x03,0x05,0x06,0x07, and whose payload decodes to text
beginning with XFhd or XFln, the event is treated as an XF sub-chunk —
the record list becomes the XF merge of the collected fields and no
plain text record is pushed — uniformly in which of the six kinds the
type byte is.  (For type bytes outside the six kinds the payload is
skipped without decoding, so no XF fields are contributed; see the
counterexample.) -/
theorem c3_xf_any_recognised_kind (dec : List Nat → List Char) (data : List Nat) (tc : Nat)
    (s : WalkState) (mt : Nat)
    (hst : jsGet data ((readVarLen data s.i).2) = some 255)
    (hmt : jsGet data ((readVarLen data s.i).2 + 1) = some mt)
    (hmem : mt = 1 ∨ mt = 2 ∨ mt = 3 ∨ mt = 5 ∨ mt = 6 ∨ mt = 7)
    (htext :
      (payloadText dec data ((readVarLen data s.i).2 + 1)).take 4 = ("XFhd").toList ∨
      (payloadText dec data ((readVarLen data s.i).2 + 1)).take 4 = ("XFln").toList) :
    walkStep dec data tc s =
      (⟨(readVarLen data ((readVarLen data s.i).2 + 1 + 1)).2 +
          asInt32 (readVarLen data ((readVarLen data s.i).2 + 1 + 1)).1, some 255,
        mergeXF s.metaList ((payloadText dec data ((readVarLen data s.i).2 + 1)).take 4)
          (collectFields
            (XF_INFO_TYPES ((payloadText dec data ((readVarLen data s.i).2 + 1)).take 4))
            ((payloadText dec data ((readVarLen data s.i).2 + 1)).splitOn ':'))⟩,
       false) :=
  walkStep_xf dec data tc s mt hst hmt hmem htext

/-- Witness for C3 on a lyrics-kind (0x05) meta event carrying an
XFhd:a payload. -/
theorem c3_witness :
    (jsGet xfBody3 ((readVarLen xfBody3 0).2) = some 255 ∧
     jsGet xfBody3 ((readVarLen xfBody3 0).2 + 1) = some 5 ∧
     (payloadText decAscii xfBody3 ((readVarLen xfBody3 0).2 + 1)).take 4 = ("XFhd").toList) ∧
    walkStep decAscii xfBody3 0 ⟨0, some 0, []⟩ =
      (⟨10, some 255, [MetaEvent.xf ⟨[⟨("発表年月日"), ("a").toList⟩], []⟩]⟩, false) := by
  refine ⟨⟨rfl, rfl, rfl⟩, ?_⟩
  have h := c3_xf_any_recognised_kind decAscii xfBody3 0 ⟨0, some 0, []⟩ 5 rfl rfl
    (by omega) (Or.inl rfl)
  rw [h]
  rfl

/-- Counterexample to C3 as stated: in unrecognisedXfFile the single
meta event carries the type byte 0x04, which is not one of the six
recognised kinds, and its payload decodes to text beginning with XFhd —
yet decode yields a track with no records at all: the event contributes
no XF fields, contradicting the claim that the XF treatment applies
regardless of the meta-type byte. -/
theorem c3_counterexample :
    (jsGet unrecognisedXfFile 24 = some 4 ∧
     META_EVENT_TYPES 4 = none ∧
     (payloadText decAscii unrecognisedXfFile 24).take 4 = ("XFhd").toList) ∧
    parseMidi decAscii 100 unrecognisedXfFile = some (Except.ok [⟨1, []⟩]) :=
  ⟨⟨rfl, rfl, rfl⟩, rfl⟩

/-- C4 (amended): decoding xfMergeFile — an XFhd:ID1:1999/01/01 payload
immediately followed by an XFln:en:Song Title payload in one chunk —
produces exactly one XF record, not two.  Its common category holds the
entries 発表年月日/ID1 and 制作地/1999/01/01, and its per-language
category the entries 言語情報/en and 曲名/Song Title: the code indexes
the label table by the split position of the field with position 0 (the
prefix) skipped, so the first field after the prefix gets the second
label of the table, and the first label ID is never used. -/
theorem c4_xf_merge_single_record :
    parseMidi decAscii 100 xfMergeFile =
      some (Except.ok [⟨1, [MetaEvent.xf xfMergeInfo]⟩]) ∧
    [MetaEvent.xf xfMergeInfo].countP MetaEvent.isXf = 1 :=
  ⟨rfl, rfl⟩

/-- Counterexample to C4 as stated: the common category of the single
XF record obtained from xfMergeFile contains no entry whose label is ID,
in particular none with label ID and text ID1 as the claim requires. -/
theorem c4_counterexample :
    parseMidi decAscii 100 xfMergeFile =
      some (Except.ok [⟨1, [MetaEvent.xf xfMergeInfo]⟩]) ∧
    (∀ f ∈ xfMergeInfo.«共通», ¬(f.type = ("ID") ∧ f.text = ("ID1").toList)) :=
  ⟨rfl, by decide⟩

/-- C5 (amended): when the event walker reads an XF payload (meta
status 0xFF, recognised type byte, text beginning with XFhd or XFln),
it folds the collected fields into the most recently appended record
exactly when that record is an XF record — concatenating into the
matching category and leaving the record count unchanged — and only
otherwise appends a fresh XF record whose other category is empty.  The
claimed invariant that a chunk can never accumulate two XF records is
false, because a plain text record can intervene between two XF
payloads; see the counterexample. -/
theorem c5_merge_policy (dec : List Nat → List Char) (data : List Nat) (tc : Nat)
    (s : WalkState) (mt : Nat)
    (hst : jsGet data ((readVarLen data s.i).2) = some 255)
    (hmt : jsGet data ((readVarLen data s.i).2 + 1) = some mt)
    (hmem : mt = 1 ∨ mt = 2 ∨ mt = 3 ∨ mt = 5 ∨ mt = 6 ∨ mt = 7)
    (htext :
      (payloadText dec data ((readVarLen data s.i).2 + 1)).take 4 = ("XFhd").toList ∨
      (payloadText dec data ((readVarLen data s.i).2 + 1)).take 4 = ("XFln").toList) :
    (∀ info, s.metaList.getLast? = some (MetaEvent.xf info) →
      (walkStep dec data tc s).1.metaList =
        s.metaList.dropLast ++
          [MetaEvent.xf
            (if (payloadText dec data ((readVarLen data s.i).2 + 1)).take 4
                = ("XFhd").toList then
              ⟨info.«共通» ++
                collectFields
                  (XF_INFO_TYPES
                    ((payloadText dec data ((readVarLen data s.i).2 + 1)).take 4))
                  ((payloadText dec data ((readVarLen data s.i).2 + 1)).splitOn ':'),
               info.«言語別»⟩
             else
              ⟨info.«共通»,
               info.«言語別» ++
                collectFields
                  (XF_INFO_TYPES
                    ((payloadText dec data ((readVarLen data s.i).2 + 1)).take 4))
                  ((payloadText dec data ((readVarLen data s.i).2 + 1)).splitOn ':')⟩)] ∧
      (walkStep dec data tc s).1.metaList.length = s.metaList.length) ∧
    ((∀ info, s.metaList.getLast? ≠ some (MetaEvent.xf info)) →
      (walkStep dec data tc s).1.metaList =
        s.metaList ++
          [MetaEvent.xf
            (if (payloadText dec data ((readVarLen data s.i).2 + 1)).take 4
                = ("XFhd").toList then
              ⟨collectFields
                  (XF_INFO_TYPES
                    ((payloadText dec data ((readVarLen data s.i).2 + 1)).take 4))
                  ((payloadText dec data ((readVarLen data s.i).2 + 1)).splitOn ':'), []⟩
             else
              ⟨[],
               collectFields
                  (XF_INFO_TYPES
                    ((payloadText dec data ((readVarLen data s.i).2 + 1)).take 4))
                  ((payloadText dec data ((readVarLen data s.i).2 + 1)).splitOn ':')⟩)]) := by
  rw [walkStep_xf dec data tc s mt hst hmt hmem htext]
  constructor
  · intro info hlast
    have hne : s.metaList ≠ [] := by
      intro he
      rw [he] at hlast
      exact Option.noConfusion hlast
    constructor
    · simp only [mergeXF, hlast]
    · simp only [mergeXF, hlast]
      have hpos : 0 < s.metaList.length := List.length_pos.mpr hne
      simp only [List.length_append, List.length_dropLast, List.length_cons,
        List.length_nil]
      omega
  · intro h2
    cases hlast : s.metaList.getLast? with
    | none => simp only [mergeXF, hlast]
    | some ev =>
        cases ev with
        | xf info => exact absurd hlast (h2 info)
        | normal t x => simp only [mergeXF, hlast]

/-- Witness for C5: an XFln:b:c payload folded into the record left by
the preceding XFhd:a payload, leaving one record. -/
theorem c5_witness :
    ((payloadText decAscii xfBody5 ((readVarLen xfBody5 0).2 + 1)).take 4
        = ("XFln").toList ∧
     c5PriorList.getLast? = some (MetaEvent.xf ⟨[⟨("発表年月日"), ("a").toList⟩], []⟩)) ∧
    (walkStep decAscii xfBody5 0 ⟨0, some 0, c5PriorList⟩).1.metaList =
      [MetaEvent.xf ⟨[⟨("発表年月日"), ("a").toList⟩],
                     [⟨("言語情報"), ("b").toList⟩, ⟨("曲名"), ("c").toList⟩]⟩] ∧
    (walkStep decAscii xfBody5 0 ⟨0, some 0, c5PriorList⟩).1.metaList.length =
      c5PriorList.length := by
  have h := (c5_merge_policy decAscii xfBody5 0 ⟨0, some 0, c5PriorList⟩ 6 rfl rfl
      (by omega) (Or.inr rfl)).1
    ⟨[⟨("発表年月日"), ("a").toList⟩], []⟩ rfl
  refine ⟨⟨rfl, rfl⟩, ?_, ?_⟩
  · rw [h.1]
    rfl
  · rw [h.2]

/-- The end-of-track meta event: type byte 0x2F with zero length stops
the walk, and the type is unrecognised so the record list is kept. -/
theorem metaStep_eot (dec : List Nat → List Char) (data : List Nat) (tc : Nat)
    (pos : Int) (rs : Option Nat) (ml : List MetaEvent)
    (hmt : jsGet data pos = some 47)
    (hlen : (readVarLen data (pos + 1)).1 = 0) :
    metaStep dec data tc pos rs ml = (⟨(readVarLen data (pos + 1)).2, rs, ml⟩, true) := by
  simp only [metaStep, hmt, Option.some_bind]
  rw [show META_EVENT_TYPES 47 = none from rfl]
  rw [if_pos ⟨trivial, hlen⟩]

/-- The running status stored by metaStep is the one passed in. -/
theorem metaStep_rs (dec : List Nat → List Char) (data : List Nat) (tc : Nat)
    (pos : Int) (rs : Option Nat) (ml : List MetaEvent) :
    (metaStep dec data tc pos rs ml).1.runningStatus = rs := by
  simp only [metaStep]
  split <;> rfl

/-- The dispatch never changes the running status it is handed. -/
theorem dispatch_rs (dec : List Nat → List Char) (data : List Nat) (tc : Nat)
    (st : Option Nat) (i : Int) (rs : Option Nat) (ml : List MetaEvent) :
    (dispatch dec data tc st i rs ml).1.runningStatus = rs := by
  unfold dispatch
  split
  · exact metaStep_rs dec data tc i rs ml
  · split
    · rfl
    · split <;> rfl
  · rfl

/-- C7: when the event walker reads a meta event with type byte 0x2F
and zero length before the chunk body end, the walk of that chunk stops
at once with the records gathered so far: the result is already
returned at the smallest fuel, independently of the remaining fuel, so
none of the bytes after the event are scanned and none produce records.
The first conjunct covers an explicit 0xFF status byte, the second the
type byte reached through running status 0xFF. -/
theorem c7_end_of_track_stops (dec : List Nat → List Char) (data : List Nat) (tc : Nat)
    (endPos : Int) (n : Nat) (s : WalkState) (h : s.i < endPos) :
    (jsGet data ((readVarLen data s.i).2) = some 255 →
     jsGet data ((readVarLen data s.i).2 + 1) = some 47 →
     (readVarLen data ((readVarLen data s.i).2 + 1 + 1)).1 = 0 →
     eventWalk dec data tc endPos (n + 1) s = some s.metaList) ∧
    (s.runningStatus = some 255 →
     jsGet data ((readVarLen data s.i).2) = some 47 →
     (readVarLen data ((readVarLen data s.i).2 + 1)).1 = 0 →
     eventWalk dec data tc endPos (n + 1) s = some s.metaList) := by
  constructor
  · intro hst hmt hlen
    rw [eventWalk, if_pos h, walkStep_status_explicit dec data tc s 255 hst (by omega)]
    rw [show dispatch dec data tc (some 255) ((readVarLen data s.i).2 + 1) (some 255)
          s.metaList =
        metaStep dec data tc ((readVarLen data s.i).2 + 1) (some 255) s.metaList from rfl]
    rw [metaStep_eot dec data tc ((readVarLen data s.i).2 + 1) (some 255) s.metaList hmt hlen]
  · intro hrs hmt hlen
    rw [eventWalk, if_pos h, walkStep_status_running dec data tc s 47 hmt (by omega), hrs]
    rw [show dispatch dec data tc (some 255) ((readVarLen data s.i).2) (some 255)
          s.metaList =
        metaStep dec data tc ((readVarLen data s.i).2) (some 255) s.metaList from rfl]
    rw [metaStep_eot dec data tc ((readVarLen data s.i).2) (some 255) s.metaList hmt hlen]

/-- Witness for C7: with fuel for just one iteration the walk of
eotBody already returns, ignoring the two stray bytes before the chunk
end at 6. -/
theorem c7_witness :
    ((0 : Int) < 6 ∧ jsGet eotBody 1 = some 255 ∧ jsGet eotBody 2 = some 47 ∧
      (readVarLen eotBody 3).1 = 0) ∧
    eventWalk decAscii eotBody 0 6 1 ⟨0, some 0, []⟩ = some [] := by
  refine ⟨⟨by decide, rfl, rfl, rfl⟩, ?_⟩
  exact (c7_end_of_track_stops decAscii eotBody 0 6 0 ⟨0, some 0, []⟩ (by decide)).1
    rfl rfl rfl

/-- C10: every byte read in status position with the high bit set
becomes the new running status — the meta status 0xFF and the
system-exclusive statuses 0xF0/0xF7 included, since the update happens
before the dispatch and no arm of the dispatch changes it.
Consequently (second conjunct) an event whose first byte has the high
bit unset while the running status is 0xFF is parsed as another meta
event through metaStep — with that byte as its type byte — and not as a
channel event. -/
theorem c10_status_update (dec : List Nat → List Char) (data : List Nat) (tc : Nat)
    (s : WalkState) (b : Nat)
    (hb : jsGet data ((readVarLen data s.i).2) = some b) :
    (128 ≤ b → (walkStep dec data tc s).1.runningStatus = some b) ∧
    (b < 128 → s.runningStatus = some 255 →
      walkStep dec data tc s =
        metaStep dec data tc ((readVarLen data s.i).2) (some 255) s.metaList) := by
  constructor
  · intro h128
    rw [walkStep_status_explicit dec data tc s b hb h128]
    exact dispatch_rs dec data tc (some b) ((readVarLen data s.i).2 + 1) (some b) s.metaList
  · intro hlt hrs
    rw [walkStep_status_running dec data tc s b hb hlt, hrs]
    rfl

/-- Witness for C10: the sysex status 0xF7 becomes the running status,
and a data byte 0x2A read while the running status is 0xFF is parsed as
a meta event with type byte 0x2A. -/
theorem c10_witness :
    (walkStep decAscii sysexBody 0 ⟨0, some 0, []⟩).1.runningStatus = some 247 ∧
    walkStep decAscii runningMetaBody 0 ⟨0, some 255, []⟩ =
      metaStep decAscii runningMetaBody 0 1 (some 255) [] :=
  ⟨(c10_status_update decAscii sysexBody 0 ⟨0, some 0, []⟩ 247 rfl).1 (by omega),
   (c10_status_update decAscii runningMetaBody 0 ⟨0, some 255, []⟩ 42 rfl).2
     (by omega) rfl⟩

/-- Bytes below 128 have no bit overlapping 128. -/
theorem lt128_and128 : ∀ x < 128, x &&& 128 = 0 := by decide

/-- Bytes below 128 are unchanged by masking with 127. -/
theorem lt128_and127 : ∀ x < 128, x &&& 127 = x := by decide

/-- A continuation byte has the top bit set. -/
theorem hi_and128 : ∀ y < 128, (128 + y) &&& 128 = 128 := by decide

/-- Masking a continuation byte with 127 recovers its payload. -/
theorem hi_and127 : ∀ y < 128, (128 + y) &&& 127 = y := by decide

/-- Oring a multiple of 128 with a value below 128 is addition. -/
theorem lor_eq_add (a b : Nat) (hb : b < 128) : a * 128 ||| b = a * 128 + b := by
  have h7 : b < 2 ^ 7 := lt_of_lt_of_le hb (by norm_num)
  rw [Nat.mul_comm a 128]
  exact (Nat.mul_add_lt_is_or h7 a).symm

/-- Projection of an explicit pair, for rewriting. -/
theorem fst_pair {α β : Type} (a : α) (b : β) : (Prod.mk a b).1 = a := rfl

/-- Projection of an explicit pair, for rewriting. -/
theorem snd_pair {α β : Type} (a : α) (b : β) : (Prod.mk a b).2 = b := rfl

/-- One loop iteration of readVarLen on a continuation byte. -/
theorem rvlAux_cons_hi (y : Nat) (hy : y < 128) (rest : List Nat) (acc : Nat)
    (hacc : acc * 128 < 4294967296) :
    rvlAux ((128 + y) :: rest) acc =
      ((rvlAux rest (acc * 128 + y)).1, (rvlAux rest (acc * 128 + y)).2 + 1) := by
  simp only [rvlAux]
  rw [Nat.mod_eq_of_lt hacc, hi_and127 y hy, lor_eq_add acc y hy]
  rw [if_neg (by rw [hi_and128 y hy]; omega)]

/-- One loop iteration of readVarLen on a final byte. -/
theorem rvlAux_cons_lo (x : Nat) (hx : x < 128) (rest : List Nat) (acc : Nat)
    (hacc : acc * 128 < 4294967296) :
    rvlAux (x :: rest) acc = (acc * 128 + x, 1) := by
  simp only [rvlAux]
  rw [Nat.mod_eq_of_lt hacc, lt128_and127 x hx, lor_eq_add acc x hx]
  rw [if_pos (lt128_and128 x hx)]

/-- The readVarLen loop inverts the encoder on the byte level. -/
theorem rvlAux_encode (v : Nat) (hv : v < 268435456) (post : List Nat) :
    rvlAux (encodeVarLen v ++ post) 0 = (v, (encodeVarLen v).length) := by
  by_cases h1 : v < 128
  · rw [encodeVarLen, if_pos h1]
    simp only [List.cons_append, List.nil_append, List.length_cons, List.length_nil]
    rw [rvlAux_cons_lo v h1 post 0 (by norm_num)]
    simp only [fst_pair, snd_pair, Prod.mk.injEq, and_true]
    omega
  · by_cases h2 : v < 16384
    · rw [encodeVarLen, if_neg h1, if_pos h2]
      simp only [List.cons_append, List.nil_append, List.length_cons, List.length_nil]
      rw [rvlAux_cons_hi (v / 128) (by omega) (v % 128 :: post) 0 (by norm_num)]
      rw [rvlAux_cons_lo (v % 128) (by omega) post (0 * 128 + v / 128) (by omega)]
      simp only [fst_pair, snd_pair, Prod.mk.injEq, and_true]
      omega
    · by_cases h3 : v < 2097152
      · rw [encodeVarLen, if_neg h1, if_neg h2, if_pos h3]
        simp only [List.cons_append, List.nil_append, List.length_cons, List.length_nil]
        rw [rvlAux_cons_hi (v / 16384) (by omega) _ 0 (by norm_num)]
        rw [rvlAux_cons_hi (v / 128 % 128) (by omega) _ (0 * 128 + v / 16384) (by omega)]
        rw [rvlAux_cons_lo (v % 128) (by omega) post
          ((0 * 128 + v / 16384) * 128 + v / 128 % 128) (by omega)]
        simp only [fst_pair, snd_pair, Prod.mk.injEq, and_true]
        omega
      · rw [encodeVarLen, if_neg h1, if_neg h2, if_neg h3]
        simp only [List.cons_append, List.nil_append, List.length_cons, List.length_nil]
        rw [rvlAux_cons_hi (v / 2097152) (by omega) _ 0 (by norm_num)]
        rw [rvlAux_cons_hi (v / 16384 % 128) (by omega) _ (0 * 128 + v / 2097152) (by omega)]
        rw [rvlAux_cons_hi (v / 128 % 128) (by omega) _
          ((0 * 128 + v / 2097152) * 128 + v / 16384 % 128) (by omega)]
        rw [rvlAux_cons_lo (v % 128) (by omega) post
          (((0 * 128 + v / 2097152) * 128 + v / 16384 % 128) * 128 + v / 128 % 128)
          (by omega)]
        simp only [fst_pair, snd_pair, Prod.mk.injEq, and_true]
        omega

/-- C8: for every value in [0, 0x0FFFFFFF], encoding it as a MIDI
variable-length quantity and decoding with readVarLen at the start of
the encoding — in any surrounding buffer — returns the original value,
and the returned next offset is the start offset plus the number of
encoded bytes. -/
theorem c8_vlq_round_trip (v : Nat) (hv : v ≤ 268435455) (pre post : List Nat) :
    readVarLen (pre ++ (encodeVarLen v ++ post)) (pre.length : Int) =
      (v, (pre.length : Int) + ((encodeVarLen v).length : Int)) := by
  rw [readVarLen, if_neg (by omega)]
  rw [show ((pre.length : Int)).toNat = pre.length from Int.toNat_natCast _]
  rw [List.drop_left]
  rw [rvlAux_encode v (by omega) post]

/-- Witness for C8 at the largest value of the range, embedded between
two stray bytes. -/
theorem c8_witness :
    (268435455 ≤ 268435455 ∧ (encodeVarLen 268435455).length = 4) ∧
    readVarLen ([7] ++ (encodeVarLen 268435455 ++ [9])) (([7] : List Nat).length : Int) =
      (268435455, (([7] : List Nat).length : Int) + ((encodeVarLen 268435455).length : Int)) :=
  ⟨⟨le_refl _, rfl⟩, c8_vlq_round_trip 268435455 (le_refl _) [7] [9]⟩

/-- Inserting one byte makes the buffer one byte longer. -/
theorem insertAt_length (l : List Nat) (q st : Nat) (hq : q ≤ l.length) :
    (insertAt l q st).length = l.length + 1 := by
  simp [insertAt]
  omega

/-- Reads strictly before the insertion point are unchanged. -/
theorem insertAt_get_lt (l : List Nat) (q st : Nat) (hq : q ≤ l.length)
    (j : Nat) (hj : j < q) :
    (insertAt l q st).get? j = l.get? j := by
  rw [insertAt, List.get?_append (by rw [List.length_take]; omega)]
  exact List.get?_take hj

/-- The inserted byte sits at the insertion point. -/
theorem insertAt_get_self (l : List Nat) (q st : Nat) (hq : q ≤ l.length) :
    (insertAt l q st).get? q = some st := by
  rw [insertAt, List.get?_append_right (by rw [List.length_take]; omega)]
  rw [List.length_take, Nat.min_eq_left hq, Nat.sub_self]
  rfl

/-- Reads at or after the insertion point are shifted by one. -/
theorem insertAt_get_ge (l : List Nat) (q st : Nat) (hq : q ≤ l.length)
    (j : Nat) (hj : q ≤ j) :
    (insertAt l q st).get? (j + 1) = l.get? j := by
  rw [insertAt, List.get?_append_right (by rw [List.length_take]; omega)]
  rw [List.length_take, Nat.min_eq_left hq]
  rw [show j + 1 - q = (j - q) + 1 by omega]
  rw [List.get?_cons_succ, List.get?_drop]
  rw [show q + (j - q) = j by omega]

/-- Suffixes starting past the insertion point are the original
suffixes. -/
theorem insertAt_drop (l : List Nat) (q st : Nat) (hq : q ≤ l.length)
    (o : Nat) (ho : q ≤ o) :
    (insertAt l q st).drop (o + 1) = l.drop o := by
  rw [insertAt]
  rw [show o + 1 = (l.take q).length + (o + 1 - q) by rw [List.length_take]; omega]
  rw [List.drop_append]
  rw [show o + 1 - q = (o - q) + 1 by omega]
  rw [List.drop_succ_cons, List.drop_drop]
  rw [show q + (o - q) = o by omega]

/-- Prefix windows that end at or before the insertion point are
unchanged. -/
theorem insertAt_window (l : List Nat) (q st : Nat) (hq : q ≤ l.length)
    (o k : Nat) (hk : o + k ≤ q) :
    ((insertAt l q st).drop o).take k = (l.drop o).take k := by
  have htake : ∀ (u v : List Nat), u.take q = v.take q →
      (u.drop o).take k = (v.drop o).take k := by
    intro u v huv
    rw [List.take_drop, List.take_drop]
    have : u.take (o + k) = v.take (o + k) := by
      rw [show o + k = min (o + k) q by omega, ← List.take_take, huv, List.take_take]
    rw [this]
  apply htake
  rw [insertAt, List.take_append_of_le_length (by rw [List.length_take]; omega),
    List.take_take, Nat.min_self]

/-- The loop of readVarLen consumes at least one byte. -/
theorem rvlAux_consumed_pos : ∀ (l : List Nat) (acc : Nat), 1 ≤ (rvlAux l acc).2 := by
  intro l acc
  cases l with
  | nil => simp [rvlAux]
  | cons b t =>
      simp only [rvlAux]
      split
      · rw [snd_pair]
      · rw [snd_pair]
        omega

/-- The next offset of readVarLen is past the start offset. -/
theorem readVarLen_next_ge (l : List Nat) (i : Int) : i + 1 ≤ (readVarLen l i).2 := by
  rw [readVarLen]
  split
  · exact ge_of_eq (snd_pair _ _)
  · show i + 1 ≤ i + ((rvlAux (l.drop i.toNat) 0).2 : Int)
    have := rvlAux_consumed_pos (l.drop i.toNat) 0
    omega

/-- The loop of readVarLen only looks at the bytes it consumes: two
suffixes agreeing on a window that covers the consumed bytes give the
same result. -/
theorem rvlAux_agree : ∀ (l1 : List Nat) (acc n : Nat) (l2 : List Nat),
    (rvlAux l1 acc).2 ≤ n → l1.take n = l2.take n → rvlAux l2 acc = rvlAux l1 acc := by
  intro l1
  induction l1 with
  | nil =>
      intro acc n l2 hc ht
      have hn : 1 ≤ n := by
        have := rvlAux_consumed_pos ([] : List Nat) acc
        omega
      have h2 : l2.take n = [] := by rw [← ht]; simp
      rcases List.take_eq_nil_iff.mp h2 with h | h
      · omega
      · rw [h]
  | cons b t ih =>
      intro acc n l2 hc ht
      cases n with
      | zero =>
          have := rvlAux_consumed_pos (b :: t) acc
          omega
      | succ m =>
          cases l2 with
          | nil => simp at ht
          | cons b2 t2 =>
              rw [List.take_succ_cons, List.take_succ_cons] at ht
              injection ht with hb2 htake
              subst hb2
              by_cases hb : b &&& 128 = 0
              · simp only [rvlAux, if_pos hb]
              · simp only [rvlAux, if_neg hb] at hc ⊢
                rw [snd_pair] at hc
                have hrec := ih ((acc * 128 % 4294967296) ||| (b &&& 127)) m t2
                  (by omega) htake
                rw [hrec]

/-- readVarLen at or after the insertion point: same value, next offset
shifted by one. -/
theorem readVarLen_insert_shift (l : List Nat) (q st : Nat) (hq : q ≤ l.length)
    (i : Int) (hi : (q : Int) ≤ i) :
    readVarLen (insertAt l q st) (i + 1) =
      ((readVarLen l i).1, (readVarLen l i).2 + 1) := by
  have hi0 : 0 ≤ i := le_trans (by omega) hi
  rw [readVarLen, readVarLen, if_neg (by omega), if_neg (by omega)]
  have hdrop : (insertAt l q st).drop (i + 1).toNat = l.drop i.toNat := by
    rw [show (i + 1).toNat = i.toNat + 1 by omega]
    exact insertAt_drop l q st hq i.toNat (by omega)
  rw [hdrop]
  dsimp only
  rw [Prod.mk.injEq]
  constructor
  · rfl
  · omega

/-- readVarLen before the insertion point, when it stops at or before
it: unchanged. -/
theorem readVarLen_insert_agree (l : List Nat) (q st : Nat) (hq : q ≤ l.length)
    (i : Int) (hi0 : 0 ≤ i) (hstop : (readVarLen l i).2 ≤ (q : Int)) :
    readVarLen (insertAt l q st) i = readVarLen l i := by
  rw [readVarLen, readVarLen, if_neg (by omega), if_neg (by omega)]
  have hnext : (readVarLen l i).2 = i + (rvlAux (l.drop i.toNat) 0).2 := by
    rw [readVarLen, if_neg (by omega)]
  have hc : (rvlAux (l.drop i.toNat) 0).2 ≤ q - i.toNat := by omega
  have hagree := rvlAux_agree (l.drop i.toNat) 0 (q - i.toNat)
    ((insertAt l q st).drop i.toNat)
    hc
    ((insertAt_window l q st hq i.toNat (q - i.toNat) (by omega)).symm)
  rw [hagree]

/-- jsGet agreement below the insertion point. -/
theorem jsGet_insert_lt (l : List Nat) (q st : Nat) (hq : q ≤ l.length)
    (j : Int) (hj : j < (q : Int)) :
    jsGet (insertAt l q st) j = jsGet l j := by
  by_cases h : j < 0
  · rw [jsGet, jsGet, if_pos h, if_pos h]
  · rw [jsGet, jsGet, if_neg h, if_neg h]
    exact insertAt_get_lt l q st hq j.toNat (by omega)

/-- jsGet at the insertion point reads the inserted byte. -/
theorem jsGet_insert_self (l : List Nat) (q st : Nat) (hq : q ≤ l.length) :
    jsGet (insertAt l q st) (q : Int) = some st := by
  rw [jsGet, if_neg (by omega)]
  rw [show ((q : Int)).toNat = q by omega]
  exact insertAt_get_self l q st hq

/-- jsGet at or after the insertion point is shifted by one. -/
theorem jsGet_insert_ge (l : List Nat) (q st : Nat) (hq : q ≤ l.length)
    (j : Int) (hj : (q : Int) ≤ j) :
    jsGet (insertAt l q st) (j + 1) = jsGet l j := by
  rw [jsGet, jsGet, if_neg (by omega), if_neg (by omega)]
  rw [show (j + 1).toNat = j.toNat + 1 by omega]
  exact insertAt_get_ge l q st hq j.toNat (by omega)

/-- A pattern below 2 to the 31 reads back as itself. -/
theorem asInt32_of_lt (pat : Nat) (h : pat < 2147483648) : asInt32 pat = (pat : Int) := by
  rw [asInt32, Nat.mod_eq_of_lt (show pat < 4294967296 by omega), if_pos h]

/-- All length quantities of a buffer are below 2 to the 31 as soon as
the in-range suffixes are: out-of-range reads accumulate 0. -/
theorem vlq_bound_lift (l : List Nat)
    (h : ∀ j, j < l.length → (rvlAux (l.drop j) 0).1 < 2147483648) :
    ∀ i : Int, (readVarLen l i).1 < 2147483648 := by
  intro i
  rw [readVarLen]
  split
  · rw [fst_pair]
    omega
  · show (rvlAux (l.drop i.toNat) 0).1 < 2147483648
    by_cases hi : i.toNat < l.length
    · exact h i.toNat hi
    · rw [List.drop_eq_nil_of_le (by omega)]
      norm_num [rvlAux]

/-- The payload slice at or after the insertion point is unchanged by
the insertion (indices shifted by one). -/
theorem jsSlice_insert_shift (l : List Nat) (q st : Nat) (hq : q < l.length)
    (i sz : Int) (hi : (q : Int) ≤ i) (hsz : 0 ≤ sz) :
    jsSlice (insertAt l q st) (i + 1) (i + 1 + sz) = jsSlice l i (i + sz) := by
  have hi0 : (0 : Int) ≤ i := le_trans (by omega) hi
  simp only [jsSlice, insertAt_length l q st (le_of_lt hq)]
  rw [if_neg (by omega), if_neg (by omega), if_neg (by omega), if_neg (by omega)]
  push_cast
  rw [show min (i + 1) ((l.length : Int) + 1) = min i (l.length : Int) + 1 by omega]
  rw [show min (i + 1 + sz) ((l.length : Int) + 1) = min (i + sz) (l.length : Int) + 1 by
    omega]
  rw [show min (i + sz) (l.length : Int) + 1 - (min i (l.length : Int) + 1)
      = min (i + sz) (l.length : Int) - min i (l.length : Int) by ring]
  rw [show (min i (l.length : Int) + 1).toNat = (min i (l.length : Int)).toNat + 1 by
    omega]
  rw [insertAt_drop l q st (by omega) (min i (l.length : Int)).toNat (by omega)]

/-- Projection of an explicit walker state, for rewriting. -/
theorem ws_i (a : Int) (b : Option Nat) (c : List MetaEvent) :
    (WalkState.mk a b c).i = a := rfl

/-- Projection of an explicit walker state, for rewriting. -/
theorem ws_rs (a : Int) (b : Option Nat) (c : List MetaEvent) :
    (WalkState.mk a b c).runningStatus = b := rfl

/-- Projection of an explicit walker state, for rewriting. -/
theorem ws_ml (a : Int) (b : Option Nat) (c : List MetaEvent) :
    (WalkState.mk a b c).metaList = c := rfl

/-- The dispatch on a status byte other than 0xFF is the if-chain of
the non-meta arms. -/
theorem dispatch_of_ne (dec : List Nat → List Char) (data : List Nat) (tc : Nat)
    (b : Nat) (hb : b ≠ 255) (i : Int) (rs : Option Nat) (ml : List MetaEvent) :
    dispatch dec data tc (some b) i rs ml =
      if 128 ≤ b ∧ b ≤ 239 then
        (⟨i + (if b &&& 240 = 192 ∨ b &&& 240 = 208 then 1 else 2), rs, ml⟩, false)
      else if b = 240 ∨ b = 247 then
        (⟨(readVarLen data i).2 + asInt32 (readVarLen data i).1, rs, ml⟩, false)
      else (⟨i + 1, rs, ml⟩, false) := by
  unfold dispatch
  split
  · next heq => exact absurd (Option.some.inj heq) hb
  · next b' heq => rw [Option.some.inj heq]
  · next heq => exact Option.noConfusion heq

/-- The text handling at or after the insertion point is unchanged by
the insertion (payload position shifted by one). -/
theorem processText_insert_shift (dec : List Nat → List Char) (l : List Nat)
    (q st : Nat) (hq : q < l.length) (tc : Nat) (tn : String) (pos len : Int)
    (ml : List MetaEvent) (hpos : (q : Int) ≤ pos) (hlen : 0 ≤ len) :
    processText dec (insertAt l q st) tc tn (pos + 1) len ml =
      processText dec l tc tn pos len ml := by
  simp only [processText]
  rw [show pos + 1 + len = pos + len + 1 by ring]
  rw [show pos + len + 1 = (pos + len) + 1 from rfl]
  rw [show jsSlice (insertAt l q st) (pos + 1) (pos + len + 1) =
        jsSlice (insertAt l q st) (pos + 1) (pos + 1 + len) by ring_nf]
  rw [jsSlice_insert_shift l q st hq pos len hpos hlen]

/-- The meta arm at or after the insertion point: same behaviour with
the cursor shifted by one, and the resulting cursor stays at or after
the insertion point. -/
theorem metaStep_insert_shift (dec : List Nat → List Char) (l : List Nat)
    (q st : Nat) (hq : q < l.length)
    (HV : ∀ j : Int, (readVarLen l j).1 < 2147483648)
    (tc : Nat) (pos : Int) (rs : Option Nat) (ml : List MetaEvent)
    (hpos : (q : Int) ≤ pos) :
    metaStep dec (insertAt l q st) tc (pos + 1) rs ml =
      shiftState (metaStep dec l tc pos rs ml) ∧
    (q : Int) ≤ (metaStep dec l tc pos rs ml).1.i := by
  have hmt : jsGet (insertAt l q st) (pos + 1) = jsGet l pos :=
    jsGet_insert_ge l q st (le_of_lt hq) pos hpos
  have hrv : readVarLen (insertAt l q st) (pos + 1 + 1) =
      ((readVarLen l (pos + 1)).1, (readVarLen l (pos + 1)).2 + 1) :=
    readVarLen_insert_shift l q st (le_of_lt hq) (pos + 1) (by omega)
  have hlen : 0 ≤ asInt32 (readVarLen l (pos + 1)).1 := by
    rw [asInt32_of_lt _ (HV (pos + 1))]
    omega
  have hnext : pos + 1 + 1 ≤ (readVarLen l (pos + 1)).2 := readVarLen_next_ge l (pos + 1)
  simp only [metaStep, hmt, hrv, fst_pair, snd_pair]
  cases hb : (jsGet l pos).bind META_EVENT_TYPES with
  | none =>
      simp only [hb]
      by_cases hbrk : jsGet l pos = some 47 ∧ (readVarLen l (pos + 1)).1 = 0
      · rw [if_pos hbrk, if_pos hbrk]
        refine ⟨rfl, by simp only [fst_pair, ws_i]; omega⟩
      · rw [if_neg hbrk, if_neg hbrk]
        refine ⟨?_, by simp only [fst_pair, ws_i]; omega⟩
        simp only [shiftState, ws_i, ws_rs, ws_ml, fst_pair, snd_pair]
        rw [show (readVarLen l (pos + 1)).2 + 1 + asInt32 (readVarLen l (pos + 1)).1
            = (readVarLen l (pos + 1)).2 + asInt32 (readVarLen l (pos + 1)).1 + 1 by ring]
  | some tn =>
      simp only [hb]
      rw [processText_insert_shift dec l q st hq tc tn ((readVarLen l (pos + 1)).2)
        (asInt32 (readVarLen l (pos + 1)).1) ml (by omega) hlen]
      by_cases hbrk : jsGet l pos = some 47 ∧ (readVarLen l (pos + 1)).1 = 0
      · rw [if_pos hbrk, if_pos hbrk]
        refine ⟨rfl, by simp only [fst_pair, ws_i]; omega⟩
      · rw [if_neg hbrk, if_neg hbrk]
        refine ⟨?_, by simp only [fst_pair, ws_i]; omega⟩
        simp only [shiftState, ws_i, ws_rs, ws_ml, fst_pair, snd_pair]
        rw [show (readVarLen l (pos + 1)).2 + 1 + asInt32 (readVarLen l (pos + 1)).1
            = (readVarLen l (pos + 1)).2 + asInt32 (readVarLen l (pos + 1)).1 + 1 by ring]

/-- The dispatch at or after the insertion point: same behaviour with
the cursor shifted by one, and the resulting cursor stays at or after
the insertion point. -/
theorem dispatch_insert_shift (dec : List Nat → List Char) (l : List Nat)
    (q st : Nat) (hq : q < l.length)
    (HV : ∀ j : Int, (readVarLen l j).1 < 2147483648)
    (tc : Nat) (status : Option Nat) (p : Int) (rs : Option Nat) (ml : List MetaEvent)
    (hp : (q : Int) ≤ p) :
    dispatch dec (insertAt l q st) tc status (p + 1) rs ml =
      shiftState (dispatch dec l tc status p rs ml) ∧
    (q : Int) ≤ (dispatch dec l tc status p rs ml).1.i := by
  cases status with
  | none => exact ⟨rfl, by simp only [dispatch, fst_pair, ws_i]; omega⟩
  | some b =>
      by_cases hb : b = 255
      · subst hb
        exact metaStep_insert_shift dec l q st hq HV tc p rs ml hp
      · rw [dispatch_of_ne dec (insertAt l q st) tc b hb (p + 1) rs ml,
            dispatch_of_ne dec l tc b hb p rs ml]
        by_cases hch : 128 ≤ b ∧ b ≤ 239
        · rw [if_pos hch, if_pos hch]
          constructor
          · simp only [shiftState, fst_pair, snd_pair, ws_i, ws_rs, ws_ml]
            rw [show p + 1 + (if b &&& 240 = 192 ∨ b &&& 240 = 208 then (1 : Int) else 2)
                = p + (if b &&& 240 = 192 ∨ b &&& 240 = 208 then (1 : Int) else 2) + 1
                by ring]
          · simp only [fst_pair, ws_i]
            split <;> omega
        · rw [if_neg hch, if_neg hch]
          by_cases hsx : b = 240 ∨ b = 247
          · rw [if_pos hsx, if_pos hsx]
            have hrv := readVarLen_insert_shift l q st (le_of_lt hq) p hp
            have hnext : p + 1 ≤ (readVarLen l p).2 := readVarLen_next_ge l p
            have hlen : 0 ≤ asInt32 (readVarLen l p).1 := by
              rw [asInt32_of_lt _ (HV p)]
              omega
            rw [hrv]
            constructor
            · simp only [shiftState, fst_pair, snd_pair, ws_i, ws_rs, ws_ml]
              rw [show (readVarLen l p).2 + 1 + asInt32 (readVarLen l p).1
                  = (readVarLen l p).2 + asInt32 (readVarLen l p).1 + 1 by ring]
            · simp only [fst_pair, ws_i]
              omega
          · rw [if_neg hsx, if_neg hsx]
            exact ⟨rfl, by simp only [fst_pair, ws_i]; omega⟩

/-- One full walker step at or after the insertion point: same
behaviour with the cursor shifted by one, and the resulting cursor
stays at or after the insertion point. -/
theorem walkStep_insert_shift (dec : List Nat → List Char) (l : List Nat)
    (q st : Nat) (hq : q < l.length)
    (HV : ∀ j : Int, (readVarLen l j).1 < 2147483648)
    (tc : Nat) (s : WalkState) (hs : (q : Int) ≤ s.i) :
    walkStep dec (insertAt l q st) tc ⟨s.i + 1, s.runningStatus, s.metaList⟩ =
      shiftState (walkStep dec l tc s) ∧
    (q : Int) ≤ (walkStep dec l tc s).1.i := by
  have hrv := readVarLen_insert_shift l q st (le_of_lt hq) s.i hs
  have haD : (q : Int) ≤ (readVarLen l s.i).2 := by
    have := readVarLen_next_ge l s.i
    omega
  have hst0 := jsGet_insert_ge l q st (le_of_lt hq) ((readVarLen l s.i).2) haD
  simp only [walkStep, ws_i, ws_rs, ws_ml, hrv, fst_pair, snd_pair, hst0]
  cases hg : jsGet l ((readVarLen l s.i).2) with
  | none =>
      simp only [hg]
      exact dispatch_insert_shift dec l q st hq HV tc none ((readVarLen l s.i).2 + 1)
        none s.metaList (by omega)
  | some b =>
      simp only [hg]
      by_cases hlt : b < 128
      · rw [if_pos hlt, if_pos hlt]
        exact dispatch_insert_shift dec l q st hq HV tc s.runningStatus
          ((readVarLen l s.i).2) s.runningStatus s.metaList haD
      · rw [if_neg hlt, if_neg hlt]
        exact dispatch_insert_shift dec l q st hq HV tc (some b)
          ((readVarLen l s.i).2 + 1) (some b) s.metaList (by omega)

/-- The remaining walk at or after the insertion point is unchanged by
the insertion: same records for every fuel, cursors in shifted
correspondence. -/
theorem eventWalk_insert_shift (dec : List Nat → List Char) (l : List Nat)
    (q st : Nat) (hq : q < l.length)
    (HV : ∀ j : Int, (readVarLen l j).1 < 2147483648)
    (tc : Nat) (endPos : Int) :
    ∀ (fuel : Nat) (s : WalkState), (q : Int) ≤ s.i →
      eventWalk dec (insertAt l q st) tc (endPos + 1) fuel
          ⟨s.i + 1, s.runningStatus, s.metaList⟩ =
        eventWalk dec l tc endPos fuel s := by
  intro fuel
  induction fuel with
  | zero => intro s hs; rfl
  | succ n ih =>
      intro s hs
      rw [eventWalk, eventWalk]
      by_cases hcond : s.i < endPos
      · rw [if_pos (by simp only [ws_i]; omega), if_pos hcond]
        obtain ⟨hstep, hbound⟩ := walkStep_insert_shift dec l q st hq HV tc s hs
        rw [hstep]
        cases hw : walkStep dec l tc s with
        | mk s' brk =>
            rw [hw] at hbound
            simp only [fst_pair] at hbound
            cases brk with
            | true => rfl
            | false =>
                have hrec := ih s' hbound
                simpa [shiftState] using hrec
      · rw [if_neg (by simp only [ws_i]; omega), if_neg hcond]

/-- C6 (amended): an event stream in which a channel voice or mode
event reuses the running status st (its first byte d has the high bit
unset) decodes to exactly the same records as the stream with the
status byte st written explicitly at that position — the chunk end
moving over by the inserted byte — provided every length quantity of
the stream reads as a nonnegative 32-bit value.  Without that proviso
the equivalence fails, because a negative length moves the cursor back
across the insertion point and the two streams desynchronise; see the
counterexample.  The walk starts at the delta time of the event, with
the running status st already established. -/
theorem c6_running_status_equiv (dec : List Nat → List Char) (l : List Nat)
    (q st d tc : Nat) (idl endPos : Int) (ml : List MetaEvent)
    (hqd : jsGet l (q : Int) = some d) (hd : d < 128)
    (hst1 : 128 ≤ st) (hst2 : st ≤ 239)
    (HV : ∀ j : Int, (readVarLen l j).1 < 2147483648)
    (hi0 : 0 ≤ idl) (hdelta : (readVarLen l idl).2 = (q : Int))
    (hlt : idl < endPos) :
    ∀ fuel : Nat,
      eventWalk dec (insertAt l q st) tc (endPos + 1) fuel ⟨idl, some st, ml⟩ =
        eventWalk dec l tc endPos fuel ⟨idl, some st, ml⟩ := by
  have hql : q < l.length := by
    by_contra hcon
    rw [jsGet, if_neg (by omega)] at hqd
    rw [List.get?_eq_none.mpr (by omega)] at hqd
    exact Option.noConfusion hqd
  intro fuel
  cases fuel with
  | zero => rfl
  | succ n =>
      rw [eventWalk, eventWalk]
      rw [if_pos (by simp only [ws_i]; omega), if_pos (by simp only [ws_i]; omega)]
      have hrvE : readVarLen (insertAt l q st) idl = readVarLen l idl :=
        readVarLen_insert_agree l q st (le_of_lt hql) idl hi0 (le_of_eq hdelta)
      have hstepE : walkStep dec (insertAt l q st) tc ⟨idl, some st, ml⟩ =
          dispatch dec (insertAt l q st) tc (some st) ((q : Int) + 1) (some st) ml := by
        have hg : jsGet (insertAt l q st)
            ((readVarLen (insertAt l q st) (⟨idl, some st, ml⟩ : WalkState).i).2)
            = some st := by
          rw [ws_i, hrvE, hdelta]
          exact jsGet_insert_self l q st (le_of_lt hql)
        rw [walkStep_status_explicit dec (insertAt l q st) tc ⟨idl, some st, ml⟩ st hg hst1]
        rw [ws_i, ws_ml, hrvE, hdelta]
      have hstepI : walkStep dec l tc ⟨idl, some st, ml⟩ =
          dispatch dec l tc (some st) (q : Int) (some st) ml := by
        have hg : jsGet l ((readVarLen l (⟨idl, some st, ml⟩ : WalkState).i).2) = some d := by
          rw [ws_i, hdelta]
          exact hqd
        rw [walkStep_status_running dec l tc ⟨idl, some st, ml⟩ d hg hd]
        rw [ws_i, ws_rs, ws_ml, hdelta]
      have hne : st ≠ 255 := by omega
      have hch : 128 ≤ st ∧ st ≤ 239 := ⟨hst1, hst2⟩
      rw [hstepE, hstepI]
      rw [dispatch_of_ne dec (insertAt l q st) tc st hne ((q : Int) + 1) (some st) ml,
          dispatch_of_ne dec l tc st hne (q : Int) (some st) ml]
      rw [if_pos hch, if_pos hch]
      have hk : (1 : Int) ≤ (if st &&& 240 = 192 ∨ st &&& 240 = 208 then (1 : Int) else 2)
        := by split <;> omega
      have hrec := eventWalk_insert_shift dec l q st hql HV tc endPos n
        ⟨(q : Int) + (if st &&& 240 = 192 ∨ st &&& 240 = 208 then (1 : Int) else 2),
          some st, ml⟩ (by simp only [ws_i]; omega)
      simp only [ws_i, ws_rs, ws_ml] at hrec
      rw [show (q : Int) + 1 + (if st &&& 240 = 192 ∨ st &&& 240 = 208 then (1 : Int) else 2)
          = (q : Int) + (if st &&& 240 = 192 ∨ st &&& 240 = 208 then (1 : Int) else 2) + 1
          by ring]
      exact hrec

/-- Witness for C6 on a two-byte note event: the stream 00 42 43 walked
with running status 0x90 decodes like 00 90 42 43. -/
theorem c6_witness :
    (jsGet [0x00, 0x42, 0x43] 1 = some 0x42 ∧
     (readVarLen [0x00, 0x42, 0x43] 0).2 = 1 ∧
     insertAt [0x00, 0x42, 0x43] 1 0x90 = [0x00, 0x90, 0x42, 0x43]) ∧
    eventWalk decAscii (insertAt [0x00, 0x42, 0x43] 1 0x90) 0 4 5 ⟨0, some 0x90, []⟩ =
      eventWalk decAscii [0x00, 0x42, 0x43] 0 3 5 ⟨0, some 0x90, []⟩ := by
  refine ⟨⟨rfl, rfl, rfl⟩, ?_⟩
  exact c6_running_status_equiv decAscii [0x00, 0x42, 0x43] 1 0x90 0x42 0 0 3 []
    rfl (by omega) (by omega) (by omega)
    (vlq_bound_lift _ (by decide)) (by omega) rfl (by omega) 5

/-- Counterexample to C6 as stated: explicitStream is implicitStream
with the status byte 0xC0 of its running-status event written
explicitly, yet the two streams do not decode to the same records: a
later meta event whose five-byte length quantity reads as -24 jumps the
cursor back across the insertion point, after which the implicit stream
re-parses a buried text event (producing one record) while the explicit
stream, shifted by one byte, re-parses different bytes (producing
none). -/
theorem c6_counterexample :
    (explicitStream = implicitStream.take 17 ++ 0xC0 :: implicitStream.drop 17 ∧
     implicitStream.get? 17 = some 0x11) ∧
    eventWalk decAscii implicitStream 0 26 100 ⟨0, some 0, []⟩ =
      some [MetaEvent.normal ("テキスト") [Char.ofNat 0]] ∧
    eventWalk decAscii explicitStream 0 27 100 ⟨0, some 0, []⟩ = some [] :=
  ⟨⟨rfl, rfl⟩, rfl, rfl⟩

/-- Counterexample to C5 as stated: decoding xfTextXfFile, whose chunk
carries an XFhd payload, then a plain text payload, then an XFln
payload, ends with a record list that contains two XF records — the
event list of a chunk is not limited to one XF record at every point of
the accumulation. -/
theorem c5_counterexample :
    parseMidi decAscii 100 xfTextXfFile =
      some (Except.ok
        [⟨1, [MetaEvent.xf ⟨[⟨("発表年月日"), ("a").toList⟩], []⟩,
              MetaEvent.normal ("テキスト") ("Hello").toList,
              MetaEvent.xf ⟨[], [⟨("言語情報"), ("b").toList⟩,
                                 ⟨("曲名"), ("c").toList⟩]⟩]⟩]) ∧
    ([MetaEvent.xf ⟨[⟨("発表年月日"), ("a").toList⟩], []⟩,
      MetaEvent.normal ("テキスト") ("Hello").toList,
      MetaEvent.xf ⟨[], [⟨("言語情報"), ("b").toList⟩,
                         ⟨("曲名"), ("c").toList⟩]⟩].countP MetaEvent.isXf = 2) :=
  ⟨rfl, rfl⟩

end MidiMetaViewer
